import Mathlib

/-!
# The `analyzer` command of the lifecycle

A shallow embedding of `cmd/analyzer/main.go`.  The command is glue around
library calls (TOML and JSON decoding, the image stores of `packs/img`, the
registry client, `lifecycle.Analyzer.Analyze`).  Each library call is an
oracle of a `World`; `analyzer` is a function of the world and the flag
variables that returns the Go `error` result together with the ordered trace
of the calls it made.  Every oracle is called at most once per run, so a
function of its arguments is a faithful stand-in for the call.
-/

namespace Lifecycle

/-! ## Errors -/

/-- The type `remote.ErrorCode` of go-containerregistry: a named string type. -/
abbrev ErrorCode := String

/-- The constant `remote.UnauthorizedErrorCode`. -/
def UnauthorizedErrorCode : ErrorCode := "UNAUTHORIZED"

/-- The constant `remote.ManifestUnknownErrorCode`. -/
def ManifestUnknownErrorCode : ErrorCode := "MANIFEST_UNKNOWN"

/-- One entry of `remote.Error.Errors`. -/
structure Diagnostic where
  Code : ErrorCode
  Message : String
deriving DecidableEq, Repr

/-- A non-nil Go `error` value, split by the dynamic types `main.go` can tell
apart: `*remote.Error` (type assertion at line 95), `*packs.ErrorFail` (built by
`packs.FailErr`, `packs.FailErrCode` and `packs.FailCode`), and everything else
(for instance the `*errors.errorString` of `errors.New`). -/
inductive GoError where
  | other (msg : String)
  | remote (Errors : List Diagnostic)
  | fail (Err : Option GoError) (Code : Int) (Action : List String)

/-- The exit codes of package `packs` that `main.go` names.  Their values are
declared in `packs`, outside this repository, so they are parameters. -/
structure Codes where
  CodeFailed : Int
  CodeInvalidArgs : Int
  CodeFailedBuild : Int

/-- The call `packs.FailErrCode(err, code, action...)`: an `*ErrorFail` holding the
three arguments. -/
def FailErrCode (err : Option GoError) (code : Int) (action : List String) : GoError :=
  .fail err code action

/-- The call `packs.FailCode(code, action...)`: a failure without a cause. -/
def FailCode (code : Int) (action : List String) : GoError :=
  FailErrCode none code action

/-- The call `packs.FailErr(err, action...)`: the code is that of `err` when `err`
is already an `*ErrorFail`, and `CodeFailed` otherwise. -/
def FailErr (c : Codes) (err : GoError) (action : List String) : GoError :=
  match err with
  | .fail _ code _ => FailErrCode (some err) code action
  | _ => FailErrCode (some err) c.CodeFailed action

/-- The exit status `packs.Exit(err)` ends the process with: 0 for nil, the code
of an `*ErrorFail`, `CodeFailed` for any other error. -/
def Exit (c : Codes) : Option GoError → Int
  | none => 0
  | some (.fail _ code _) => code
  | some _ => c.CodeFailed

/-- The type assertion `err.(*remote.Error)`: the error list when it holds. -/
def asRemoteError : GoError → Option (List Diagnostic)
  | .remote errs => some errs
  | _ => none

/-- The error a typed failure holds in its `Err` field. -/
def GoError.cause : GoError → Option GoError
  | .fail err _ _ => err
  | _ => none

/-- The code of a typed failure; `none` for an error that is not an `*ErrorFail`. -/
def GoError.failCode : GoError → Option Int
  | .fail _ code _ => some code
  | _ => none

/-! ## Data -/

/-- A buildpack descriptor of a group. -/
structure Buildpack where
  ID : String
  Version : String
deriving DecidableEq, Repr

/-- The type `lifecycle.BuildpackGroup`. -/
structure BuildpackGroup where
  Buildpacks : List Buildpack
deriving DecidableEq, Repr

/-- The package-level flag variables of `main.go`. -/
structure Flags where
  repoName : String
  useDaemon : Bool
  useHelpers : Bool
  groupPath : String
  launchDir : String
  metadataOnStdin : Bool
deriving DecidableEq, Repr

/-! ## The world -/

/-- The library calls of `analyzer`, as functions of their arguments.  `Sto` is
the repository store (`img.Store`), `Img` the image (`v1.Image`), `Doc` the
document `packs.BuildMetadata`. -/
structure World (Sto Img Doc : Type) where
  /-- Exit codes of `packs`. -/
  codes : Codes
  /-- The call `toml.DecodeFile(groupPath, &group)`. -/
  decodeFile : String → Except GoError BuildpackGroup
  /-- The call `ioutil.ReadAll(os.Stdin)`. -/
  readAllStdin : Except GoError String
  /-- The call `json.Unmarshal(txt, &config)`. -/
  jsonUnmarshal : String → Except GoError Doc
  /-- The call `img.SetupCredHelpers(repoName)`. -/
  setupCredHelpers : String → Option GoError
  /-- The call `img.NewRegistry(repoName)`. -/
  newRegistry : String → Except GoError Sto
  /-- The call `img.NewDaemon(repoName)`. -/
  newDaemon : String → Except GoError Sto
  /-- The call `repoStore.Image()`. -/
  storeImage : Sto → Except GoError Img
  /-- The call `origImage.RawManifest()`. -/
  rawManifest : Img → Except GoError String
  /-- The call `analyzer.Analyze(launchDir, image, config)` on an `Analyzer` with
  the given `Buildpacks`. -/
  analyze : List Buildpack → String → Option Img → Option Doc → Option GoError

/-- The observable steps of a run, in the order they happen. -/
inductive Event (Sto Img Doc : Type) where
  | decodeFile (path : String)
  | readStdin
  | printTxt (txt : String)
  | printConfig (config : Doc)
  | setupCredHelpers (repoName : String)
  | newRegistry (repoName : String)
  | newDaemon (repoName : String)
  | storeImage (store : Sto)
  | rawManifest (image : Img)
  | logWarning (format : String) (err : GoError)
  | analyze (buildpacks : List Buildpack) (dir : String) (image : Option Img)
      (config : Option Doc)

/-- How a call of `analyzer` ends: it returns an `error` (nil is `none`), or the
Go runtime panics. -/
inductive Outcome where
  | returned (err : Option GoError)
  | panicked (msg : String)

/-- A run: how it ended and what it did. -/
structure Run (Sto Img Doc : Type) where
  result : Outcome
  trace : List (Event Sto Img Doc)

/-- The same run after the steps `evs`. -/
def Run.after {Sto Img Doc : Type} (evs : List (Event Sto Img Doc))
    (r : Run Sto Img Doc) : Run Sto Img Doc :=
  ⟨r.result, evs ++ r.trace⟩

/-- The format of the warning at line 90. -/
def warnAuthFormat : String :=
  "WARNING: skipping analyze, authenticating to registry failed: %s"

/-- The format of the warning at line 98. -/
def warnNotFoundFormat : String :=
  "WARNING: skipping analyze, image not found or requires authentication to access: %s"

/-- Lines 94-103 of `main.go`, taken once `RawManifest` has failed with `err`:
the skip-or-fatal decision.  `Errors[0]` is a checked index, as in Go. -/
def manifestError {Sto Img Doc : Type} (c : Codes) (repoName : String) (err : GoError) :
    Run Sto Img Doc :=
  let fatal : Run Sto Img Doc :=
    ⟨.returned (some (FailErr c err ["access manifest", repoName])), []⟩
  match asRemoteError err with
  | some errs =>
    if errs.length > 0 then
      match errs.get? 0 with
      | none => ⟨.panicked "index out of range", []⟩
      | some d =>
        if d.Code = UnauthorizedErrorCode ∨ d.Code = ManifestUnknownErrorCode then
          ⟨.returned none, [.logWarning warnNotFoundFormat err]⟩
        else fatal
    else fatal
  | none => fatal

/-- Lines 79-82 of `main.go`: the store constructor `newRepoStore`, which is
`img.NewRegistry` unless `useDaemon` is set. -/
def newRepoStore {Sto Img Doc : Type} (w : World Sto Img Doc) (useDaemon : Bool) :
    String → Except GoError Sto :=
  if useDaemon then w.newDaemon else w.newRegistry

/-- The function `analyzer()` of `main.go`. -/
def analyzer {Sto Img Doc : Type} (w : World Sto Img Doc) (f : Flags) : Run Sto Img Doc :=
  Run.after [.decodeFile f.groupPath] <|
  match w.decodeFile f.groupPath with
  | .error err => ⟨.returned (some (FailErr w.codes err ["read group"])), []⟩
  | .ok group =>
    if f.metadataOnStdin then
      Run.after [.readStdin] <|
      match w.readAllStdin with
      | .error _ =>
        ⟨.returned (some (FailErrCode (some (.other "reading stdin")) w.codes.CodeFailedBuild [])),
          []⟩
      | .ok txt =>
        Run.after [.printTxt txt] <|
        match w.jsonUnmarshal txt with
        | .error err => ⟨.returned (some (FailErrCode (some err) w.codes.CodeFailedBuild [])), []⟩
        | .ok config =>
          Run.after [.printConfig config,
            .analyze group.Buildpacks f.launchDir none (some config)] <|
          match w.analyze group.Buildpacks f.launchDir none (some config) with
          | some err => ⟨.returned (some (FailErrCode (some err) w.codes.CodeFailedBuild [])), []⟩
          | none => ⟨.returned none, []⟩
    else
      let credHelpers : Option GoError :=
        if f.useHelpers then w.setupCredHelpers f.repoName else none
      Run.after (if f.useHelpers then [.setupCredHelpers f.repoName] else []) <|
      match credHelpers with
      | some err => ⟨.returned (some (FailErr w.codes err ["setup credential helpers"])), []⟩
      | none =>
        Run.after [if f.useDaemon then .newDaemon f.repoName else .newRegistry f.repoName] <|
        match newRepoStore w f.useDaemon f.repoName with
        | .error err =>
          ⟨.returned (some (FailErr w.codes err ["repository configuration", f.repoName])), []⟩
        | .ok repoStore =>
          Run.after [.storeImage repoStore] <|
          match w.storeImage repoStore with
          | .error err => ⟨.returned none, [.logWarning warnAuthFormat err]⟩
          | .ok origImage =>
            Run.after [.rawManifest origImage] <|
            match w.rawManifest origImage with
            | .error err => manifestError w.codes f.repoName err
            | .ok _ =>
              Run.after [.analyze group.Buildpacks f.launchDir (some origImage) none] <|
              match w.analyze group.Buildpacks f.launchDir (some origImage) none with
              | some err =>
                ⟨.returned (some (FailErrCode (some err) w.codes.CodeFailedBuild [])), []⟩
              | none => ⟨.returned none, []⟩

/-- How the process ends. -/
inductive ExitStatus where
  | exited (code : Int)
  | crashed (msg : String)

/-- A run of `main`: the exit status and the steps taken. -/
structure MainRun (Sto Img Doc : Type) where
  status : ExitStatus
  trace : List (Event Sto Img Doc)

/-- The action text `fmt.Sprintf` builds at line 41. -/
def parseArgumentsText (nArg : Nat) (repoName launchDir : String) : String :=
  "parse arguments: " ++ toString nArg ++ " ; \x27" ++ repoName ++ "\x27 ; \x27" ++ launchDir
    ++ "\x27"

/-- The function `main()` of `main.go`, after `flag.Parse()` has set the flag
variables and left the positional arguments `args`.  `flag.Arg(0)` is the empty
string when there is no positional argument; `packs.Exit` ends the process. -/
def main {Sto Img Doc : Type} (w : World Sto Img Doc) (flags : Flags) (args : List String) :
    MainRun Sto Img Doc :=
  let repoName := args.head?.getD ""
  if args.length > 1 ∨ repoName = "" ∨ flags.launchDir = "" then
    ⟨.exited (Exit w.codes (some (FailCode w.codes.CodeInvalidArgs
      [parseArgumentsText args.length repoName flags.launchDir]))), []⟩
  else
    let r := analyzer w { flags with repoName := repoName }
    match r.result with
    | .returned err => ⟨.exited (Exit w.codes err), r.trace⟩
    | .panicked msg => ⟨.crashed msg, r.trace⟩

/-! ## Trace predicates -/

/-- Whether a step is a call of `Analyzer.Analyze`. -/
def Event.isAnalyze {Sto Img Doc : Type} : Event Sto Img Doc → Bool
  | .analyze _ _ _ _ => true
  | _ => false

/-- Whether a step is a warning written with `log.Printf`. -/
def Event.isWarning {Sto Img Doc : Type} : Event Sto Img Doc → Bool
  | .logWarning _ _ => true
  | _ => false

/-- Whether a step sets up credential helpers, creates a repository store, or
calls `Image()` or `RawManifest()`. -/
def Event.isImageSource {Sto Img Doc : Type} : Event Sto Img Doc → Bool
  | .setupCredHelpers _ => true
  | .newRegistry _ => true
  | .newDaemon _ => true
  | .storeImage _ => true
  | .rawManifest _ => true
  | _ => false

/-- The calls of `Analyzer.Analyze` in a trace. -/
def analyzeCalls {Sto Img Doc : Type} (t : List (Event Sto Img Doc)) :
    List (Event Sto Img Doc) :=
  t.filter Event.isAnalyze

/-- The test of lines 95-97 of `main.go` on a `RawManifest` error: a
`*remote.Error` with a non-empty list whose first code is `UnauthorizedErrorCode`
or `ManifestUnknownErrorCode`. -/
def isUnauthorizedOrNotFound (err : GoError) : Prop :=
  ∃ d rest, err = .remote (d :: rest) ∧
    (d.Code = UnauthorizedErrorCode ∨ d.Code = ManifestUnknownErrorCode)

instance (err : GoError) : Decidable (isUnauthorizedOrNotFound err) :=
  match err with
  | .remote (d :: rest) =>
    if h : d.Code = UnauthorizedErrorCode ∨ d.Code = ManifestUnknownErrorCode then
      isTrue ⟨d, rest, rfl, h⟩
    else
      isFalse (fun ⟨_, _, he, hc⟩ => by cases he; exact h hc)
  | .remote [] => isFalse (fun ⟨_, _, he, _⟩ => by cases he)
  | .other _ => isFalse (fun ⟨_, _, he, _⟩ => by cases he)
  | .fail _ _ _ => isFalse (fun ⟨_, _, he, _⟩ => by cases he)

/-- The state `analyzer` is in when it reaches line 88 with a repository store:
image mode, the group file decoded, credential helpers set up when asked for, and
the store created. -/
def ReachesStore {Sto Img Doc : Type} (w : World Sto Img Doc) (f : Flags)
    (group : BuildpackGroup) (store : Sto) : Prop :=
  f.metadataOnStdin = false ∧ w.decodeFile f.groupPath = .ok group ∧
    (f.useHelpers = true → w.setupCredHelpers f.repoName = none) ∧
    newRepoStore w f.useDaemon f.repoName = .ok store

/-- The steps of a run in image mode up to the creation of the repository
store (lines 46-83). -/
def storeSteps {Sto Img Doc : Type} (f : Flags) : List (Event Sto Img Doc) :=
  [.decodeFile f.groupPath] ++
    (if f.useHelpers then [.setupCredHelpers f.repoName] else []) ++
    [if f.useDaemon then .newDaemon f.repoName else .newRegistry f.repoName]

/-- What `analyzer` returns after `Analyze` returned `r` (lines 68-71 and
105-109). -/
def afterAnalyze (c : Codes) (r : Option GoError) : Outcome :=
  match r with
  | some err => .returned (some (FailErrCode (some err) c.CodeFailedBuild []))
  | none => .returned none

/-- The runs `analyzer` can make: one constructor per `return` of the function,
with the conditions under which it is reached. -/
inductive Path {Sto Img Doc : Type} (w : World Sto Img Doc) (f : Flags) :
    Run Sto Img Doc → Prop where
  | groupError (err : GoError) (hg : w.decodeFile f.groupPath = .error err) :
      Path w f ⟨.returned (some (FailErr w.codes err ["read group"])),
        [.decodeFile f.groupPath]⟩
  | stdinReadError (group : BuildpackGroup) (err : GoError) (hm : f.metadataOnStdin = true)
      (hg : w.decodeFile f.groupPath = .ok group) (hr : w.readAllStdin = .error err) :
      Path w f
        ⟨.returned (some (FailErrCode (some (.other "reading stdin")) w.codes.CodeFailedBuild [])),
          [.decodeFile f.groupPath, .readStdin]⟩
  | stdinJsonError (group : BuildpackGroup) (txt : String) (err : GoError)
      (hm : f.metadataOnStdin = true) (hg : w.decodeFile f.groupPath = .ok group)
      (hr : w.readAllStdin = .ok txt) (hj : w.jsonUnmarshal txt = .error err) :
      Path w f ⟨.returned (some (FailErrCode (some err) w.codes.CodeFailedBuild [])),
        [.decodeFile f.groupPath, .readStdin, .printTxt txt]⟩
  | stdinAnalyze (group : BuildpackGroup) (txt : String) (config : Doc)
      (hm : f.metadataOnStdin = true) (hg : w.decodeFile f.groupPath = .ok group)
      (hr : w.readAllStdin = .ok txt) (hj : w.jsonUnmarshal txt = .ok config) :
      Path w f
        ⟨afterAnalyze w.codes (w.analyze group.Buildpacks f.launchDir none (some config)),
          [.decodeFile f.groupPath, .readStdin, .printTxt txt, .printConfig config,
            .analyze group.Buildpacks f.launchDir none (some config)]⟩
  | credError (group : BuildpackGroup) (err : GoError) (hm : f.metadataOnStdin = false)
      (hg : w.decodeFile f.groupPath = .ok group) (hh : f.useHelpers = true)
      (hc : w.setupCredHelpers f.repoName = some err) :
      Path w f ⟨.returned (some (FailErr w.codes err ["setup credential helpers"])),
        [.decodeFile f.groupPath, .setupCredHelpers f.repoName]⟩
  | storeError (group : BuildpackGroup) (err : GoError) (hm : f.metadataOnStdin = false)
      (hg : w.decodeFile f.groupPath = .ok group)
      (hc : f.useHelpers = true → w.setupCredHelpers f.repoName = none)
      (hs : newRepoStore w f.useDaemon f.repoName = .error err) :
      Path w f
        ⟨.returned (some (FailErr w.codes err ["repository configuration", f.repoName])),
          storeSteps f⟩
  | imageError (group : BuildpackGroup) (store : Sto) (err : GoError)
      (hs : ReachesStore w f group store) (hi : w.storeImage store = .error err) :
      Path w f
        ⟨.returned none, storeSteps f ++ [.storeImage store, .logWarning warnAuthFormat err]⟩
  | manifestSkip (group : BuildpackGroup) (store : Sto) (img : Img) (err : GoError)
      (hs : ReachesStore w f group store) (hi : w.storeImage store = .ok img)
      (hman : w.rawManifest img = .error err) (hk : isUnauthorizedOrNotFound err) :
      Path w f
        ⟨.returned none, storeSteps f ++
          [.storeImage store, .rawManifest img, .logWarning warnNotFoundFormat err]⟩
  | manifestFatal (group : BuildpackGroup) (store : Sto) (img : Img) (err : GoError)
      (hs : ReachesStore w f group store) (hi : w.storeImage store = .ok img)
      (hman : w.rawManifest img = .error err) (hk : ¬ isUnauthorizedOrNotFound err) :
      Path w f
        ⟨.returned (some (FailErr w.codes err ["access manifest", f.repoName])),
          storeSteps f ++ [.storeImage store, .rawManifest img]⟩
  | imageAnalyze (group : BuildpackGroup) (store : Sto) (img : Img) (manifest : String)
      (hs : ReachesStore w f group store) (hi : w.storeImage store = .ok img)
      (hman : w.rawManifest img = .ok manifest) :
      Path w f
        ⟨afterAnalyze w.codes (w.analyze group.Buildpacks f.launchDir (some img) none),
          storeSteps f ++ [.storeImage store, .rawManifest img,
            .analyze group.Buildpacks f.launchDir (some img) none]⟩

/-- A run that ends in a skip: it logged a warning. -/
def Run.isSkip {Sto Img Doc : Type} (r : Run Sto Img Doc) : Prop :=
  r.trace.any Event.isWarning = true

/-- A run that ends in a completed `Analyze`: `Analyze` was called and
`analyzer` returned nil. -/
def Run.completedAnalyze {Sto Img Doc : Type} (r : Run Sto Img Doc) : Prop :=
  analyzeCalls r.trace ≠ [] ∧ r.result = .returned none

/-! ## Sample worlds

Stores and images are named by strings, and the metadata document is kept as
its text. -/

/-- Sample values for the exit codes. -/
def sampleCodes : Codes := ⟨1, 3, 7⟩

/-- A world where every call succeeds. -/
def baseWorld : World String String String where
  codes := sampleCodes
  decodeFile := fun _ => .ok ⟨[⟨"buildpack.id", "0.0.1"⟩]⟩
  readAllStdin := .ok "\x7b\x7d"
  jsonUnmarshal := fun txt => .ok txt
  setupCredHelpers := fun _ => none
  newRegistry := fun r => .ok r
  newDaemon := fun r => .ok r
  storeImage := fun s => .ok s
  rawManifest := fun _ => .ok "manifest"
  analyze := fun _ _ _ _ => none

/-- The registry answers the manifest request with `UNAUTHORIZED`. -/
def worldUnauthorized : World String String String :=
  { baseWorld with
    rawManifest := fun _ => .error (.remote [⟨"UNAUTHORIZED", "authentication required"⟩]) }

/-- The registry answers the manifest request with `DENIED` first and
`UNAUTHORIZED` second. -/
def worldDenied : World String String String :=
  { baseWorld with
    rawManifest := fun _ =>
      .error (.remote [⟨"DENIED", "access denied"⟩, ⟨"UNAUTHORIZED", "authentication required"⟩]) }

/-- The call `Image()` fails because the registry cannot be reached. -/
def worldUnreachable : World String String String :=
  { baseWorld with storeImage := fun _ => .error (.other "dial tcp: connection refused") }

/-- The group file does not decode. -/
def worldBadGroup : World String String String :=
  { baseWorld with decodeFile := fun _ => .error (.other "open group.toml: no such file") }

/-- Standard input holds text that is not JSON. -/
def worldBadJson : World String String String :=
  { baseWorld with
    readAllStdin := .ok "not json"
    jsonUnmarshal := fun _ => .error (.other "invalid character") }

/-- Reading standard input fails. -/
def worldStdinFails : World String String String :=
  { baseWorld with readAllStdin := .error (.other "read /dev/stdin: is a directory") }

/-- Flags of a run in image mode against a registry. -/
def imageFlags : Flags :=
  ⟨"registry.example/app", false, false, "/workspace/group.toml", "/launch", false⟩

/-- Flags of a run in stdin metadata mode. -/
def stdinFlags : Flags :=
  ⟨"registry.example/app", false, false, "/workspace/group.toml", "/launch", true⟩

/-! ## Lemmas on the skip-or-fatal decision -/

theorem manifestError_skip {Sto Img Doc : Type} (c : Codes) (repoName : String) (d : Diagnostic)
    (rest : List Diagnostic)
    (h : d.Code = UnauthorizedErrorCode ∨ d.Code = ManifestUnknownErrorCode) :
    (manifestError c repoName (.remote (d :: rest)) : Run Sto Img Doc) =
      ⟨.returned none, [.logWarning warnNotFoundFormat (.remote (d :: rest))]⟩ := by
  simp [manifestError, asRemoteError, h]

theorem manifestError_fatal {Sto Img Doc : Type} (c : Codes) (repoName : String) (err : GoError)
    (h : ¬ isUnauthorizedOrNotFound err) :
    (manifestError c repoName err : Run Sto Img Doc) =
      ⟨.returned (some (FailErr c err ["access manifest", repoName])), []⟩ := by
  unfold manifestError
  cases err with
  | other msg => simp [asRemoteError]
  | fail e code action => simp [asRemoteError]
  | remote errs =>
    cases errs with
    | nil => simp [asRemoteError]
    | cons d rest =>
      have hd : ¬ (d.Code = UnauthorizedErrorCode ∨ d.Code = ManifestUnknownErrorCode) :=
        fun hc => h ⟨d, rest, rfl, hc⟩
      simp [asRemoteError, hd]

theorem manifestError_cases {Sto Img Doc : Type} (c : Codes) (repoName : String)
    (err : GoError) :
    (isUnauthorizedOrNotFound err ∧ (manifestError c repoName err : Run Sto Img Doc) =
        ⟨.returned none, [.logWarning warnNotFoundFormat err]⟩) ∨
      (¬ isUnauthorizedOrNotFound err ∧ (manifestError c repoName err : Run Sto Img Doc) =
        ⟨.returned (some (FailErr c err ["access manifest", repoName])), []⟩) := by
  by_cases h : isUnauthorizedOrNotFound err
  · left
    obtain ⟨d, rest, rfl, hc⟩ := h
    exact ⟨⟨d, rest, rfl, hc⟩, manifestError_skip c repoName d rest hc⟩
  · right
    exact ⟨h, manifestError_fatal c repoName err h⟩

theorem failErr_shape (c : Codes) (err : GoError) (action : List String) :
    ∃ code, FailErr c err action = .fail (some err) code action := by
  cases err <;> exact ⟨_, rfl⟩

/-! ## One equation per path through `analyzer` -/

theorem analyzer_group_error {Sto Img Doc : Type} (w : World Sto Img Doc) (f : Flags)
    (err : GoError) (hg : w.decodeFile f.groupPath = .error err) :
    analyzer w f =
      ⟨.returned (some (FailErr w.codes err ["read group"])), [.decodeFile f.groupPath]⟩ := by
  simp [analyzer, hg, Run.after]

theorem analyzer_stdin_read_error {Sto Img Doc : Type} (w : World Sto Img Doc) (f : Flags)
    (group : BuildpackGroup) (err : GoError) (hm : f.metadataOnStdin = true)
    (hg : w.decodeFile f.groupPath = .ok group) (hr : w.readAllStdin = .error err) :
    analyzer w f =
      ⟨.returned (some (FailErrCode (some (.other "reading stdin")) w.codes.CodeFailedBuild [])),
        [.decodeFile f.groupPath, .readStdin]⟩ := by
  simp [analyzer, hg, hm, hr, Run.after]

theorem analyzer_stdin_json_error {Sto Img Doc : Type} (w : World Sto Img Doc) (f : Flags)
    (group : BuildpackGroup) (txt : String) (err : GoError) (hm : f.metadataOnStdin = true)
    (hg : w.decodeFile f.groupPath = .ok group) (hr : w.readAllStdin = .ok txt)
    (hj : w.jsonUnmarshal txt = .error err) :
    analyzer w f =
      ⟨.returned (some (FailErrCode (some err) w.codes.CodeFailedBuild [])),
        [.decodeFile f.groupPath, .readStdin, .printTxt txt]⟩ := by
  simp [analyzer, hg, hm, hr, hj, Run.after]

theorem analyzer_stdin_analyze {Sto Img Doc : Type} (w : World Sto Img Doc) (f : Flags)
    (group : BuildpackGroup) (txt : String) (config : Doc) (hm : f.metadataOnStdin = true)
    (hg : w.decodeFile f.groupPath = .ok group) (hr : w.readAllStdin = .ok txt)
    (hj : w.jsonUnmarshal txt = .ok config) :
    analyzer w f =
      ⟨afterAnalyze w.codes (w.analyze group.Buildpacks f.launchDir none (some config)),
        [.decodeFile f.groupPath, .readStdin, .printTxt txt, .printConfig config,
          .analyze group.Buildpacks f.launchDir none (some config)]⟩ := by
  cases ha : w.analyze group.Buildpacks f.launchDir none (some config) <;>
    simp [analyzer, hg, hm, hr, hj, ha, Run.after, afterAnalyze]

theorem analyzer_cred_error {Sto Img Doc : Type} (w : World Sto Img Doc) (f : Flags)
    (group : BuildpackGroup) (err : GoError) (hm : f.metadataOnStdin = false)
    (hg : w.decodeFile f.groupPath = .ok group) (hh : f.useHelpers = true)
    (hc : w.setupCredHelpers f.repoName = some err) :
    analyzer w f =
      ⟨.returned (some (FailErr w.codes err ["setup credential helpers"])),
        [.decodeFile f.groupPath, .setupCredHelpers f.repoName]⟩ := by
  simp [analyzer, hg, hm, hh, hc, Run.after]

theorem analyzer_store_error {Sto Img Doc : Type} (w : World Sto Img Doc) (f : Flags)
    (group : BuildpackGroup) (err : GoError) (hm : f.metadataOnStdin = false)
    (hg : w.decodeFile f.groupPath = .ok group)
    (hc : f.useHelpers = true → w.setupCredHelpers f.repoName = none)
    (hs : newRepoStore w f.useDaemon f.repoName = .error err) :
    analyzer w f =
      ⟨.returned (some (FailErr w.codes err ["repository configuration", f.repoName])),
        storeSteps f⟩ := by
  cases hh : f.useHelpers
  · simp [analyzer, hg, hm, hh, hs, Run.after, storeSteps]
  · simp [analyzer, hg, hm, hh, hc hh, hs, Run.after, storeSteps]

theorem analyzer_at_store {Sto Img Doc : Type} (w : World Sto Img Doc) (f : Flags)
    (group : BuildpackGroup) (store : Sto) (hs : ReachesStore w f group store) :
    analyzer w f =
      Run.after (storeSteps f ++ [.storeImage store])
        (match w.storeImage store with
          | .error err => ⟨.returned none, [.logWarning warnAuthFormat err]⟩
          | .ok origImage =>
            Run.after [.rawManifest origImage]
              (match w.rawManifest origImage with
                | .error err => manifestError w.codes f.repoName err
                | .ok _ =>
                  ⟨afterAnalyze w.codes
                      (w.analyze group.Buildpacks f.launchDir (some origImage) none),
                    [.analyze group.Buildpacks f.launchDir (some origImage) none]⟩)) := by
  obtain ⟨hm, hg, hc, hst⟩ := hs
  have key : ∀ (x : Option GoError) (pre : List (Event Sto Img Doc)),
      Run.after pre (match x with
        | some err => ⟨.returned (some (FailErrCode (some err) w.codes.CodeFailedBuild [])), []⟩
        | none => ⟨.returned none, []⟩) = ⟨afterAnalyze w.codes x, pre⟩ := by
    intro x pre
    cases x <;> simp [Run.after, afterAnalyze]
  cases hh : f.useHelpers
  · simp only [analyzer, hg, hm, hh, hst, storeSteps, key]
    cases w.storeImage store with
    | error e => simp [Run.after]
    | ok o => cases w.rawManifest o <;> simp [Run.after]
  · simp only [analyzer, hg, hm, hh, hc hh, hst, storeSteps, key]
    cases w.storeImage store with
    | error e => simp [Run.after]
    | ok o => cases w.rawManifest o <;> simp [Run.after]

theorem analyzer_image_error {Sto Img Doc : Type} (w : World Sto Img Doc) (f : Flags)
    (group : BuildpackGroup) (store : Sto) (err : GoError) (hs : ReachesStore w f group store)
    (hi : w.storeImage store = .error err) :
    analyzer w f =
      ⟨.returned none, storeSteps f ++ [.storeImage store, .logWarning warnAuthFormat err]⟩ := by
  rw [analyzer_at_store w f group store hs, hi]
  simp [Run.after]

theorem analyzer_at_manifest_error {Sto Img Doc : Type} (w : World Sto Img Doc) (f : Flags)
    (group : BuildpackGroup) (store : Sto) (img : Img) (err : GoError)
    (hs : ReachesStore w f group store) (hi : w.storeImage store = .ok img)
    (hman : w.rawManifest img = .error err) :
    analyzer w f =
      Run.after (storeSteps f ++ [.storeImage store, .rawManifest img])
        (manifestError w.codes f.repoName err) := by
  rw [analyzer_at_store w f group store hs, hi]
  simp [Run.after, hman]

theorem analyzer_image_analyze {Sto Img Doc : Type} (w : World Sto Img Doc) (f : Flags)
    (group : BuildpackGroup) (store : Sto) (img : Img) (manifest : String)
    (hs : ReachesStore w f group store) (hi : w.storeImage store = .ok img)
    (hman : w.rawManifest img = .ok manifest) :
    analyzer w f =
      ⟨afterAnalyze w.codes (w.analyze group.Buildpacks f.launchDir (some img) none),
        storeSteps f ++ [.storeImage store, .rawManifest img,
          .analyze group.Buildpacks f.launchDir (some img) none]⟩ := by
  rw [analyzer_at_store w f group store hs, hi]
  simp [Run.after, hman]

theorem analyzer_path {Sto Img Doc : Type} (w : World Sto Img Doc) (f : Flags) :
    Path w f (analyzer w f) := by
  cases hg : w.decodeFile f.groupPath with
  | error err =>
    rw [analyzer_group_error w f err hg]
    exact .groupError err hg
  | ok group =>
    cases hm : f.metadataOnStdin with
    | true =>
      cases hr : w.readAllStdin with
      | error err =>
        rw [analyzer_stdin_read_error w f group err hm hg hr]
        exact .stdinReadError group err hm hg hr
      | ok txt =>
        cases hj : w.jsonUnmarshal txt with
        | error err =>
          rw [analyzer_stdin_json_error w f group txt err hm hg hr hj]
          exact .stdinJsonError group txt err hm hg hr hj
        | ok config =>
          rw [analyzer_stdin_analyze w f group txt config hm hg hr hj]
          exact .stdinAnalyze group txt config hm hg hr hj
    | false =>
      by_cases hc : f.useHelpers = true → w.setupCredHelpers f.repoName = none
      · cases hst : newRepoStore w f.useDaemon f.repoName with
        | error err =>
          rw [analyzer_store_error w f group err hm hg hc hst]
          exact .storeError group err hm hg hc hst
        | ok store =>
          have hs : ReachesStore w f group store := ⟨hm, hg, hc, hst⟩
          cases hi : w.storeImage store with
          | error err =>
            rw [analyzer_image_error w f group store err hs hi]
            exact .imageError group store err hs hi
          | ok img =>
            cases hman : w.rawManifest img with
            | error err =>
              rw [analyzer_at_manifest_error w f group store img err hs hi hman]
              rcases @manifestError_cases Sto Img Doc w.codes f.repoName err with ⟨hk, he⟩ | ⟨hk, he⟩
              · rw [he]
                simpa [Run.after] using Path.manifestSkip group store img err hs hi hman hk
              · rw [he]
                simpa [Run.after] using Path.manifestFatal group store img err hs hi hman hk
            | ok manifest =>
              rw [analyzer_image_analyze w f group store img manifest hs hi hman]
              exact .imageAnalyze group store img manifest hs hi hman
      · push_neg at hc
        obtain ⟨hh, hne⟩ := hc
        cases hcr : w.setupCredHelpers f.repoName with
        | none => exact absurd hcr hne
        | some err =>
          rw [analyzer_cred_error w f group err hm hg hh hcr]
          exact .credError group err hm hg hh hcr

/-! ## Lemmas on traces -/

theorem analyzeCalls_storeSteps {Sto Img Doc : Type} (f : Flags)
    (l : List (Event Sto Img Doc)) :
    analyzeCalls (storeSteps f ++ l) = analyzeCalls l := by
  unfold analyzeCalls storeSteps
  cases f.useHelpers <;> cases f.useDaemon <;> simp [List.filter, Event.isAnalyze]

theorem any_isWarning_storeSteps {Sto Img Doc : Type} (f : Flags)
    (l : List (Event Sto Img Doc)) :
    (storeSteps f ++ l).any Event.isWarning = l.any Event.isWarning := by
  unfold storeSteps
  cases f.useHelpers <;> cases f.useDaemon <;> simp [Event.isWarning]

theorem analyze_mem_storeSteps {Sto Img Doc : Type} (f : Flags)
    (l : List (Event Sto Img Doc)) (bps : List Buildpack) (dir : String) (image : Option Img)
    (config : Option Doc) :
    Event.analyze bps dir image config ∈ storeSteps f ++ l ↔
      Event.analyze bps dir image config ∈ l := by
  unfold storeSteps
  cases f.useHelpers <;> cases f.useDaemon <;> simp

theorem analyze_not_mem_of_calls_nil {Sto Img Doc : Type} (t : List (Event Sto Img Doc))
    (h : analyzeCalls t = []) (bps : List Buildpack) (dir : String) (image : Option Img)
    (config : Option Doc) : Event.analyze bps dir image config ∉ t := by
  intro hmem
  have : Event.analyze bps dir image config ∈ analyzeCalls t :=
    List.mem_filter.mpr ⟨hmem, rfl⟩
  rw [h] at this
  exact List.not_mem_nil _ this

theorem analyzeCalls_storeSteps_nil {Sto Img Doc : Type} (f : Flags) :
    analyzeCalls (storeSteps f : List (Event Sto Img Doc)) = [] := by
  have h := @analyzeCalls_storeSteps Sto Img Doc f []
  rw [List.append_nil] at h
  rw [h]
  rfl

theorem not_unauthorizedOrNotFound_other (msg : String) :
    ¬ isUnauthorizedOrNotFound (.other msg) := by
  rintro ⟨d, rest, h, _⟩
  cases h

theorem reachesStore_base (w : World String String String) (f : Flags) (group : BuildpackGroup)
    (hm : f.metadataOnStdin = false) (hg : w.decodeFile f.groupPath = .ok group)
    (hc : w.setupCredHelpers = fun _ => none) (hr : w.newRegistry = fun r => .ok r)
    (hd : w.newDaemon = fun r => .ok r) : ReachesStore w f group f.repoName := by
  refine ⟨hm, hg, fun _ => by rw [hc], ?_⟩
  unfold newRepoStore
  cases f.useDaemon <;> simp [hr, hd]

theorem skip_or_analyze {Sto Img Doc : Type} (w : World Sto Img Doc) (f : Flags) :
    ((analyzer w f).trace.any Event.isWarning = true →
        (analyzer w f).result = .returned none ∧ analyzeCalls (analyzer w f).trace = []) ∧
      (analyzeCalls (analyzer w f).trace ≠ [] →
        (analyzer w f).trace.any Event.isWarning = false) := by
  have hp := analyzer_path w f
  generalize analyzer w f = r at hp
  cases hp with
  | groupError err hg => simp [analyzeCalls, Event.isAnalyze, Event.isWarning]
  | stdinReadError group err hm hg hr => simp [analyzeCalls, Event.isAnalyze, Event.isWarning]
  | stdinJsonError group txt err hm hg hr hj =>
    simp [analyzeCalls, Event.isAnalyze, Event.isWarning]
  | stdinAnalyze group txt config hm hg hr hj =>
    simp [analyzeCalls, Event.isAnalyze, Event.isWarning]
  | credError group err hm hg hh hc => simp [analyzeCalls, Event.isAnalyze, Event.isWarning]
  | storeError group err hm hg hc hs =>
    have h := @any_isWarning_storeSteps Sto Img Doc f []
    rw [List.append_nil] at h
    simp only [h, analyzeCalls_storeSteps_nil]
    simp
  | imageError group store err hs hi =>
    simp only [any_isWarning_storeSteps, analyzeCalls_storeSteps]
    simp [analyzeCalls, Event.isAnalyze, Event.isWarning]
  | manifestSkip group store img err hs hi hman hk =>
    simp only [any_isWarning_storeSteps, analyzeCalls_storeSteps]
    simp [analyzeCalls, Event.isAnalyze, Event.isWarning]
  | manifestFatal group store img err hs hi hman hk =>
    simp only [any_isWarning_storeSteps, analyzeCalls_storeSteps]
    simp [analyzeCalls, Event.isAnalyze, Event.isWarning]
  | imageAnalyze group store img manifest hs hi hman =>
    simp only [any_isWarning_storeSteps, analyzeCalls_storeSteps]
    simp [analyzeCalls, Event.isAnalyze, Event.isWarning]

/-- Every run of `analyzer` returns, and what it returns is nil or a typed
failure that holds some error and a code. -/
theorem analyzer_returns {Sto Img Doc : Type} (w : World Sto Img Doc) (f : Flags) :
    (analyzer w f).result = .returned none ∨
      ∃ cause code action,
        (analyzer w f).result = .returned (some (.fail (some cause) code action)) := by
  have hfail : ∀ (err : GoError) (action : List String),
      ∃ cause code act, Outcome.returned (some (FailErr w.codes err action)) =
        .returned (some (.fail (some cause) code act)) := by
    intro err action
    obtain ⟨code, h⟩ := failErr_shape w.codes err action
    exact ⟨err, code, action, by rw [h]⟩
  have hafter : ∀ x : Option GoError, afterAnalyze w.codes x = .returned none ∨
      ∃ cause code act, afterAnalyze w.codes x = .returned (some (.fail (some cause) code act)) := by
    intro x
    cases x with
    | none => exact Or.inl rfl
    | some e => exact Or.inr ⟨e, _, _, rfl⟩
  have hp := analyzer_path w f
  generalize analyzer w f = r at hp
  cases hp with
  | groupError err hg => exact Or.inr (hfail _ _)
  | stdinReadError group err hm hg hr => exact Or.inr ⟨_, _, _, rfl⟩
  | stdinJsonError group txt err hm hg hr hj => exact Or.inr ⟨_, _, _, rfl⟩
  | stdinAnalyze group txt config hm hg hr hj => exact hafter _
  | credError group err hm hg hh hc => exact Or.inr (hfail _ _)
  | storeError group err hm hg hc hs => exact Or.inr (hfail _ _)
  | imageError group store err hs hi => exact Or.inl rfl
  | manifestSkip group store img err hs hi hman hk => exact Or.inl rfl
  | manifestFatal group store img err hs hi hman hk => exact Or.inr (hfail _ _)
  | imageAnalyze group store img manifest hs hi hman => exact hafter _

theorem analyzer_trace_ne_nil {Sto Img Doc : Type} (w : World Sto Img Doc) (f : Flags) :
    (analyzer w f).trace ≠ [] := by
  simp [analyzer, Run.after]

/-- Every failing step of `analyzer` other than the read of standard input
returns a typed failure whose `Err` field is the error that step produced; the
failed read of standard input returns a typed failure around a fresh error. -/
theorem failure_cause {Sto Img Doc : Type} (w : World Sto Img Doc) (f : Flags) (e : GoError)
    (h : (analyzer w f).result = .returned (some e)) :
    ∃ cause code, e.cause = some cause ∧ e.failCode = some code ∧
      (w.decodeFile f.groupPath = .error cause ∨
        (cause = .other "reading stdin" ∧ ∃ err, w.readAllStdin = .error err) ∨
        (∃ txt, w.readAllStdin = .ok txt ∧ w.jsonUnmarshal txt = .error cause) ∨
        w.setupCredHelpers f.repoName = some cause ∨
        newRepoStore w f.useDaemon f.repoName = .error cause ∨
        (∃ store img, w.storeImage store = .ok img ∧ w.rawManifest img = .error cause) ∨
        ∃ bps img config, w.analyze bps f.launchDir img config = some cause) := by
  have hfail : ∀ (err : GoError) (action : List String),
      Outcome.returned (some (FailErr w.codes err action)) = .returned (some e) →
      ∃ code, e.cause = some err ∧ e.failCode = some code := by
    intro err action he
    obtain ⟨code, hc⟩ := failErr_shape w.codes err action
    rw [hc] at he
    simp only [Outcome.returned.injEq, Option.some.injEq] at he
    subst he
    exact ⟨code, rfl, rfl⟩
  have hafter : ∀ x : Option GoError, afterAnalyze w.codes x = .returned (some e) →
      ∃ code, e.cause = x ∧ e.failCode = some code ∧ ∃ c, x = some c := by
    intro x hx
    cases x with
    | none => simp [afterAnalyze] at hx
    | some c =>
      simp only [afterAnalyze, FailErrCode, Outcome.returned.injEq, Option.some.injEq] at hx
      subst hx
      exact ⟨_, rfl, rfl, c, rfl⟩
  have hp := analyzer_path w f
  generalize analyzer w f = r at hp h
  cases hp with
  | groupError err hg =>
    obtain ⟨code, h1, h2⟩ := hfail _ _ h
    exact ⟨err, code, h1, h2, Or.inl hg⟩
  | stdinReadError group err hm hg hr =>
    simp only [FailErrCode, Outcome.returned.injEq, Option.some.injEq] at h
    subst h
    exact ⟨_, _, rfl, rfl, Or.inr (Or.inl ⟨rfl, err, hr⟩)⟩
  | stdinJsonError group txt err hm hg hr hj =>
    simp only [FailErrCode, Outcome.returned.injEq, Option.some.injEq] at h
    subst h
    exact ⟨_, _, rfl, rfl, Or.inr (Or.inr (Or.inl ⟨txt, hr, hj⟩))⟩
  | stdinAnalyze group txt config hm hg hr hj =>
    obtain ⟨code, h1, h2, c, hc⟩ := hafter _ h
    exact ⟨c, code, by rw [h1, hc], h2,
      Or.inr (Or.inr (Or.inr (Or.inr (Or.inr (Or.inr ⟨_, _, _, hc⟩)))))⟩
  | credError group err hm hg hh hc =>
    obtain ⟨code, h1, h2⟩ := hfail _ _ h
    exact ⟨err, code, h1, h2, Or.inr (Or.inr (Or.inr (Or.inl hc)))⟩
  | storeError group err hm hg hc hs =>
    obtain ⟨code, h1, h2⟩ := hfail _ _ h
    exact ⟨err, code, h1, h2, Or.inr (Or.inr (Or.inr (Or.inr (Or.inl hs))))⟩
  | imageError group store err hs hi => simp at h
  | manifestSkip group store img err hs hi hman hk => simp at h
  | manifestFatal group store img err hs hi hman hk =>
    obtain ⟨code, h1, h2⟩ := hfail _ _ h
    exact ⟨err, code, h1, h2,
      Or.inr (Or.inr (Or.inr (Or.inr (Or.inr (Or.inl ⟨store, img, hi, hman⟩)))))⟩
  | imageAnalyze group store img manifest hs hi hman =>
    obtain ⟨code, h1, h2, c, hc⟩ := hafter _ h
    exact ⟨c, code, by rw [h1, hc], h2,
      Or.inr (Or.inr (Or.inr (Or.inr (Or.inr (Or.inr ⟨_, _, _, hc⟩)))))⟩

/-! ## The claims -/

/-- C1: in image mode, with the group file decoded and the repository store
created, when `RawManifest` on the prior image fails with a `*remote.Error`
whose error list is non-empty and starts with `UnauthorizedErrorCode` or
`ManifestUnknownErrorCode`, `analyzer` returns nil and its trace holds no call of
`Analyze`: nothing is restored into the launch directory. -/
theorem analyzer_skips_unauthorized_or_not_found {Sto Img Doc : Type}
    (w : World Sto Img Doc) (f : Flags) (group : BuildpackGroup) (store : Sto) (img : Img)
    (d : Diagnostic) (rest : List Diagnostic)
    (hs : ReachesStore w f group store) (hi : w.storeImage store = .ok img)
    (hman : w.rawManifest img = .error (.remote (d :: rest)))
    (hcode : d.Code = UnauthorizedErrorCode ∨ d.Code = ManifestUnknownErrorCode) :
    (analyzer w f).result = .returned none ∧ analyzeCalls (analyzer w f).trace = [] := by
  rw [analyzer_at_manifest_error w f group store img _ hs hi hman,
    manifestError_skip w.codes f.repoName d rest hcode]
  refine ⟨rfl, ?_⟩
  simp only [Run.after, List.append_assoc]
  rw [analyzeCalls_storeSteps]
  simp [analyzeCalls, Event.isAnalyze]

theorem analyzer_skips_unauthorized_or_not_found_witness :
    (analyzer worldUnauthorized imageFlags).result = .returned none ∧
      analyzeCalls (analyzer worldUnauthorized imageFlags).trace = [] :=
  analyzer_skips_unauthorized_or_not_found worldUnauthorized imageFlags
    ⟨[⟨"buildpack.id", "0.0.1"⟩]⟩ "registry.example/app" "registry.example/app"
    ⟨"UNAUTHORIZED", "authentication required"⟩ []
    (reachesStore_base _ _ _ rfl rfl rfl rfl rfl) rfl rfl (Or.inl rfl)

/-- C9: when `RawManifest` fails with `err`, `analyzer` returns nil if and only if
`err` is a `*remote.Error` with a non-empty error list whose first code is
`UnauthorizedErrorCode` or `ManifestUnknownErrorCode`; for every other error it
returns the "access manifest" failure built from `err`; and the run never
panics, so the index `Errors[0]` stays in bounds. -/
theorem manifest_error_decision {Sto Img Doc : Type} (w : World Sto Img Doc) (f : Flags)
    (group : BuildpackGroup) (store : Sto) (img : Img) (err : GoError)
    (hs : ReachesStore w f group store) (hi : w.storeImage store = .ok img)
    (hman : w.rawManifest img = .error err) :
    ((analyzer w f).result = .returned none ↔
        ∃ errs d, asRemoteError err = some errs ∧ errs.length > 0 ∧ errs.get? 0 = some d ∧
          (d.Code = UnauthorizedErrorCode ∨ d.Code = ManifestUnknownErrorCode)) ∧
      ((analyzer w f).result ≠ .returned none →
        (analyzer w f).result =
          .returned (some (FailErr w.codes err ["access manifest", f.repoName]))) ∧
      ∀ msg, (analyzer w f).result ≠ .panicked msg := by
  have hiff : isUnauthorizedOrNotFound err ↔
      ∃ errs d, asRemoteError err = some errs ∧ errs.length > 0 ∧ errs.get? 0 = some d ∧
        (d.Code = UnauthorizedErrorCode ∨ d.Code = ManifestUnknownErrorCode) := by
    constructor
    · rintro ⟨d, rest, rfl, hc⟩
      exact ⟨d :: rest, d, rfl, by simp, rfl, hc⟩
    · rintro ⟨errs, d, he, _, hd, hc⟩
      cases err with
      | other msg => simp [asRemoteError] at he
      | fail e code action => simp [asRemoteError] at he
      | remote es =>
        simp only [asRemoteError, Option.some.injEq] at he
        subst he
        cases es with
        | nil => simp at hd
        | cons d0 rest =>
          simp only [List.get?_cons_zero, Option.some.injEq] at hd
          subst hd
          exact ⟨d0, rest, rfl, hc⟩
  rw [analyzer_at_manifest_error w f group store img err hs hi hman, ← hiff]
  rcases @manifestError_cases Sto Img Doc w.codes f.repoName err
    with ⟨hk, he⟩ | ⟨hk, he⟩
  · rw [he]
    simp [Run.after, hk]
  · rw [he]
    simp [Run.after, hk]

theorem manifest_error_decision_witness :
    ((analyzer worldDenied imageFlags).result = .returned none ↔
        ∃ errs d, asRemoteError (.remote [⟨"DENIED", "access denied"⟩,
            ⟨"UNAUTHORIZED", "authentication required"⟩]) = some errs ∧
          errs.length > 0 ∧ errs.get? 0 = some d ∧
          (d.Code = UnauthorizedErrorCode ∨ d.Code = ManifestUnknownErrorCode)) ∧
      ((analyzer worldDenied imageFlags).result ≠ .returned none →
        (analyzer worldDenied imageFlags).result =
          .returned (some (FailErr sampleCodes (.remote [⟨"DENIED", "access denied"⟩,
            ⟨"UNAUTHORIZED", "authentication required"⟩])
            ["access manifest", "registry.example/app"]))) ∧
      ∀ msg, (analyzer worldDenied imageFlags).result ≠ .panicked msg :=
  manifest_error_decision worldDenied imageFlags ⟨[⟨"buildpack.id", "0.0.1"⟩]⟩
    "registry.example/app" "registry.example/app" _
    (reachesStore_base _ _ _ rfl rfl rfl rfl rfl) rfl rfl

/-- C2, counterexample to the claim as stated: it is not true that every
error of `Image()` or `RawManifest()` other than unauthorized or not-found makes
`analyzer` return a non-nil error.  When `Image()` fails with "connection
refused", `analyzer` returns nil. -/
theorem image_error_is_not_fatal :
    ¬ ∀ (w : World String String String) (f : Flags) (group : BuildpackGroup) (store : String)
        (err : GoError), ReachesStore w f group store →
        ((w.storeImage store = .error err) ∨
          ∃ img, w.storeImage store = .ok img ∧ w.rawManifest img = .error err) →
        ¬ isUnauthorizedOrNotFound err →
        ∃ e, (analyzer w f).result = .returned (some e) := by
  intro h
  have hs : ReachesStore worldUnreachable imageFlags ⟨[⟨"buildpack.id", "0.0.1"⟩]⟩
      "registry.example/app" := reachesStore_base _ _ _ rfl rfl rfl rfl rfl
  obtain ⟨e, he⟩ := h worldUnreachable imageFlags _ _ (.other "dial tcp: connection refused")
    hs (Or.inl rfl) (not_unauthorizedOrNotFound_other _)
  rw [analyzer_image_error worldUnreachable imageFlags _ _ _ hs rfl] at he
  simp at he

/-- C2, amended: once the repository store exists, every error of
`repoStore.Image()`, whatever its kind, is logged as a warning and `analyzer`
returns nil without calling `Analyze`; every error of `origImage.RawManifest()`
that is not an unauthorized or not-found error makes `analyzer` return the
non-nil "access manifest" failure, again without calling `Analyze`. -/
theorem fetch_error_outcomes {Sto Img Doc : Type} (w : World Sto Img Doc) (f : Flags)
    (group : BuildpackGroup) (store : Sto) (hs : ReachesStore w f group store) :
    (∀ err, w.storeImage store = .error err →
        (analyzer w f).result = .returned none ∧
          Event.logWarning warnAuthFormat err ∈ (analyzer w f).trace ∧
          analyzeCalls (analyzer w f).trace = []) ∧
      (∀ img err, w.storeImage store = .ok img → w.rawManifest img = .error err →
        ¬ isUnauthorizedOrNotFound err →
        (analyzer w f).result =
            .returned (some (FailErr w.codes err ["access manifest", f.repoName])) ∧
          analyzeCalls (analyzer w f).trace = []) := by
  constructor
  · intro err hi
    rw [analyzer_image_error w f group store err hs hi]
    refine ⟨rfl, by simp, ?_⟩
    simp only []
    rw [analyzeCalls_storeSteps]
    simp [analyzeCalls, Event.isAnalyze]
  · intro img err hi hman hk
    rw [analyzer_at_manifest_error w f group store img err hs hi hman,
      manifestError_fatal w.codes f.repoName err hk]
    refine ⟨rfl, ?_⟩
    simp only [Run.after, List.append_assoc]
    rw [analyzeCalls_storeSteps]
    simp [analyzeCalls, Event.isAnalyze]

theorem fetch_error_outcomes_witness :
    ((analyzer worldUnreachable imageFlags).result = .returned none ∧
        Event.logWarning warnAuthFormat (.other "dial tcp: connection refused") ∈
          (analyzer worldUnreachable imageFlags).trace ∧
        analyzeCalls (analyzer worldUnreachable imageFlags).trace = []) ∧
      ((analyzer worldDenied imageFlags).result =
          .returned (some (FailErr sampleCodes (.remote [⟨"DENIED", "access denied"⟩,
            ⟨"UNAUTHORIZED", "authentication required"⟩])
            ["access manifest", "registry.example/app"])) ∧
        analyzeCalls (analyzer worldDenied imageFlags).trace = []) :=
  ⟨(fetch_error_outcomes worldUnreachable imageFlags ⟨[⟨"buildpack.id", "0.0.1"⟩]⟩
      "registry.example/app" (reachesStore_base _ _ _ rfl rfl rfl rfl rfl)).1 _ rfl,
    (fetch_error_outcomes worldDenied imageFlags ⟨[⟨"buildpack.id", "0.0.1"⟩]⟩
      "registry.example/app" (reachesStore_base _ _ _ rfl rfl rfl rfl rfl)).2
      "registry.example/app" _ rfl rfl (by decide)⟩

/-- C3: in every run of `analyzer`, `Analyze` is called at most once, and every
call has `launchDir` as its directory and exactly one of the image and the
document non-nil: in stdin mode a nil image with the document decoded from
standard input, otherwise the image fetched from the store with a nil document. -/
theorem analyze_once_with_exactly_one_input {Sto Img Doc : Type} (w : World Sto Img Doc)
    (f : Flags) :
    (analyzeCalls (analyzer w f).trace).length ≤ 1 ∧
      ∀ bps dir image config, Event.analyze bps dir image config ∈ (analyzer w f).trace →
        dir = f.launchDir ∧ image.isSome = !config.isSome ∧
        (f.metadataOnStdin = true → image = none ∧
          ∃ txt c, w.readAllStdin = .ok txt ∧ w.jsonUnmarshal txt = .ok c ∧ config = some c) ∧
        (f.metadataOnStdin = false → config = none ∧
          ∃ store o, newRepoStore w f.useDaemon f.repoName = .ok store ∧
            w.storeImage store = .ok o ∧ image = some o) := by
  have hnone : ∀ t : List (Event Sto Img Doc), analyzeCalls t = [] →
      (analyzeCalls t).length ≤ 1 ∧
      ∀ bps dir image config, Event.analyze bps dir image config ∈ t →
        dir = f.launchDir ∧ image.isSome = !config.isSome ∧
        (f.metadataOnStdin = true → image = none ∧
          ∃ txt c, w.readAllStdin = .ok txt ∧ w.jsonUnmarshal txt = .ok c ∧ config = some c) ∧
        (f.metadataOnStdin = false → config = none ∧
          ∃ store o, newRepoStore w f.useDaemon f.repoName = .ok store ∧
            w.storeImage store = .ok o ∧ image = some o) := by
    intro t ht
    refine ⟨by rw [ht]; exact Nat.zero_le _, ?_⟩
    intro bps dir image config hmem
    exact absurd hmem (analyze_not_mem_of_calls_nil t ht bps dir image config)
  have hp := analyzer_path w f
  generalize analyzer w f = r at hp
  cases hp with
  | groupError err hg => exact hnone _ rfl
  | stdinReadError group err hm hg hr => exact hnone _ rfl
  | stdinJsonError group txt err hm hg hr hj => exact hnone _ rfl
  | stdinAnalyze group txt config hm hg hr hj =>
    refine ⟨by simp [analyzeCalls, Event.isAnalyze], ?_⟩
    intro bps dir image cfg hmem
    simp only [List.mem_cons, List.mem_singleton, Event.analyze.injEq, reduceCtorEq, false_or,
      List.not_mem_nil, or_false] at hmem
    obtain ⟨-, rfl, rfl, rfl⟩ := hmem
    exact ⟨rfl, rfl, fun _ => ⟨rfl, txt, config, hr, hj, rfl⟩, fun h => by simp [hm] at h⟩
  | credError group err hm hg hh hc => exact hnone _ rfl
  | storeError group err hm hg hc hs => exact hnone _ (analyzeCalls_storeSteps_nil f)
  | imageError group store err hs hi =>
    exact hnone _ (by rw [analyzeCalls_storeSteps]; rfl)
  | manifestSkip group store img err hs hi hman hk =>
    exact hnone _ (by rw [analyzeCalls_storeSteps]; rfl)
  | manifestFatal group store img err hs hi hman hk =>
    exact hnone _ (by rw [analyzeCalls_storeSteps]; rfl)
  | imageAnalyze group store img manifest hs hi hman =>
    refine ⟨by rw [analyzeCalls_storeSteps]; simp [analyzeCalls, Event.isAnalyze], ?_⟩
    intro bps dir image cfg hmem
    rw [analyze_mem_storeSteps] at hmem
    simp only [List.mem_cons, List.mem_singleton, Event.analyze.injEq, reduceCtorEq, false_or,
      List.not_mem_nil, or_false] at hmem
    obtain ⟨-, rfl, rfl, rfl⟩ := hmem
    exact ⟨rfl, rfl, fun h => by simp [hs.1] at h, fun _ => ⟨rfl, store, img, hs.2.2.2, hi, rfl⟩⟩

theorem analyze_once_with_exactly_one_input_witness :
    (analyzeCalls (analyzer baseWorld stdinFlags).trace).length ≤ 1 ∧
      "/launch" = stdinFlags.launchDir ∧
      (none : Option String).isSome = !(some "\x7b\x7d" : Option String).isSome :=
  have hmem : Event.analyze [⟨"buildpack.id", "0.0.1"⟩] "/launch" none (some "\x7b\x7d") ∈
      (analyzer baseWorld stdinFlags).trace := by
    rw [analyzer_stdin_analyze baseWorld stdinFlags ⟨[⟨"buildpack.id", "0.0.1"⟩]⟩ "\x7b\x7d"
      "\x7b\x7d" rfl rfl rfl rfl]
    simp [stdinFlags]
  ⟨(analyze_once_with_exactly_one_input baseWorld stdinFlags).1,
    ((analyze_once_with_exactly_one_input baseWorld stdinFlags).2 _ _ _ _ hmem).1,
    ((analyze_once_with_exactly_one_input baseWorld stdinFlags).2 _ _ _ _ hmem).2.1⟩

/-- C4: when decoding the group file fails, `analyzer` returns a non-nil error
and the decode is the only step of the run (standard input is not read, no image
source is touched, `Analyze` is not called); and in stdin mode, when the text
read from standard input does not decode as JSON, `analyzer` returns a non-nil
error with code `CodeFailedBuild` and `Analyze` is never called. -/
theorem unreadable_document_is_fatal {Sto Img Doc : Type} (w : World Sto Img Doc)
    (f : Flags) :
    (∀ err, w.decodeFile f.groupPath = .error err →
        (∃ e, (analyzer w f).result = .returned (some e)) ∧
          (analyzer w f).trace = [.decodeFile f.groupPath]) ∧
      (∀ group txt err, f.metadataOnStdin = true → w.decodeFile f.groupPath = .ok group →
        w.readAllStdin = .ok txt → w.jsonUnmarshal txt = .error err →
        (∃ e, (analyzer w f).result = .returned (some e) ∧
            e.failCode = some w.codes.CodeFailedBuild) ∧
          analyzeCalls (analyzer w f).trace = []) := by
  constructor
  · intro err hg
    rw [analyzer_group_error w f err hg]
    exact ⟨⟨_, rfl⟩, rfl⟩
  · intro group txt err hm hg hr hj
    rw [analyzer_stdin_json_error w f group txt err hm hg hr hj]
    exact ⟨⟨_, rfl, rfl⟩, rfl⟩

theorem unreadable_document_is_fatal_witness :
    ((∃ e, (analyzer worldBadGroup imageFlags).result = .returned (some e)) ∧
        (analyzer worldBadGroup imageFlags).trace = [.decodeFile "/workspace/group.toml"]) ∧
      ((∃ e, (analyzer worldBadJson stdinFlags).result = .returned (some e) ∧
          e.failCode = some sampleCodes.CodeFailedBuild) ∧
        analyzeCalls (analyzer worldBadJson stdinFlags).trace = []) :=
  ⟨(unreadable_document_is_fatal worldBadGroup imageFlags).1 _ rfl,
    (unreadable_document_is_fatal worldBadJson stdinFlags).2 ⟨[⟨"buildpack.id", "0.0.1"⟩]⟩
      "not json" _ rfl rfl rfl rfl⟩

theorem analyzer_stdin_ignores_image_flags {Sto Img Doc : Type} (w : World Sto Img Doc)
    (f : Flags) (hm : f.metadataOnStdin = true) (useHelpers useDaemon : Bool)
    (repoName : String) :
    analyzer w { f with useHelpers := useHelpers, useDaemon := useDaemon, repoName := repoName } =
      analyzer w f := by
  simp [analyzer, hm]

/-- C5: in stdin metadata mode, whatever `useHelpers`, `useDaemon` and
`repoName` are, the run sets up no credential helper, creates no repository
store and calls neither `Image()` nor `RawManifest()`, and the run does not
depend on those three flags; when the group file and the JSON on standard input
both decode, `Analyze` is called once, as `Analyze(launchDir, nil, &config)`
with `config` the decoded document, and `analyzer` returns nil exactly when that
call returns nil. -/
theorem stdin_mode_uses_stdin_document {Sto Img Doc : Type} (w : World Sto Img Doc)
    (f : Flags) (hm : f.metadataOnStdin = true) :
    (∀ e ∈ (analyzer w f).trace, e.isImageSource = false) ∧
      (∀ useHelpers useDaemon repoName,
        analyzer w { f with useHelpers := useHelpers, useDaemon := useDaemon, repoName := repoName }
          = analyzer w f) ∧
      (∀ group txt config, w.decodeFile f.groupPath = .ok group → w.readAllStdin = .ok txt →
        w.jsonUnmarshal txt = .ok config →
        analyzeCalls (analyzer w f).trace =
            [.analyze group.Buildpacks f.launchDir none (some config)] ∧
          ((analyzer w f).result = .returned none ↔
            w.analyze group.Buildpacks f.launchDir none (some config) = none)) := by
  refine ⟨?_, fun h d r => analyzer_stdin_ignores_image_flags w f hm h d r, ?_⟩
  · have hp := analyzer_path w f
    generalize analyzer w f = r at hp
    cases hp with
    | groupError err hg => simp [Event.isImageSource]
    | stdinReadError group err hm hg hr => simp [Event.isImageSource]
    | stdinJsonError group txt err hm hg hr hj => simp [Event.isImageSource]
    | stdinAnalyze group txt config hm hg hr hj => simp [Event.isImageSource]
    | credError group err hm' hg hh hc => simp [hm] at hm'
    | storeError group err hm' hg hc hs => simp [hm] at hm'
    | imageError group store err hs hi => exact absurd hs.1 (by simp [hm])
    | manifestSkip group store img err hs hi hman hk => exact absurd hs.1 (by simp [hm])
    | manifestFatal group store img err hs hi hman hk => exact absurd hs.1 (by simp [hm])
    | imageAnalyze group store img manifest hs hi hman => exact absurd hs.1 (by simp [hm])
  · intro group txt config hg hr hj
    rw [analyzer_stdin_analyze w f group txt config hm hg hr hj]
    refine ⟨by simp [analyzeCalls, Event.isAnalyze], ?_⟩
    cases w.analyze group.Buildpacks f.launchDir none (some config) <;> simp [afterAnalyze]

theorem stdin_mode_uses_stdin_document_witness :
    (∀ e ∈ (analyzer baseWorld stdinFlags).trace, e.isImageSource = false) ∧
      analyzer baseWorld { stdinFlags with useHelpers := true, useDaemon := true, repoName := "" }
        = analyzer baseWorld stdinFlags ∧
      analyzeCalls (analyzer baseWorld stdinFlags).trace =
          [.analyze [⟨"buildpack.id", "0.0.1"⟩] "/launch" none (some "\x7b\x7d")] ∧
      ((analyzer baseWorld stdinFlags).result = .returned none ↔
        baseWorld.analyze [⟨"buildpack.id", "0.0.1"⟩] "/launch" none (some "\x7b\x7d") = none) :=
  ⟨(stdin_mode_uses_stdin_document baseWorld stdinFlags rfl).1,
    (stdin_mode_uses_stdin_document baseWorld stdinFlags rfl).2.1 true true "",
    (stdin_mode_uses_stdin_document baseWorld stdinFlags rfl).2.2
      ⟨[⟨"buildpack.id", "0.0.1"⟩]⟩ "\x7b\x7d" "\x7b\x7d" rfl rfl rfl⟩

/-- C7, the code at the failing input: in stdin mode, when `ioutil.ReadAll`
fails with "read /dev/stdin: is a directory", `analyzer` returns a typed failure
with code `CodeFailedBuild` whose `Err` field is the fresh error "reading stdin";
that error is not the one `ReadAll` produced and wraps nothing, so the cause is
lost. -/
theorem stdin_read_failure_drops_cause :
    worldStdinFails.readAllStdin = .error (.other "read /dev/stdin: is a directory") ∧
      (analyzer worldStdinFails stdinFlags).result =
        .returned (some (.fail (some (.other "reading stdin")) sampleCodes.CodeFailedBuild [])) ∧
      GoError.other "reading stdin" ≠ .other "read /dev/stdin: is a directory" ∧
      (GoError.other "reading stdin").cause = none := by
  refine ⟨rfl, ?_, ?_, rfl⟩
  · rw [analyzer_stdin_read_error worldStdinFails stdinFlags ⟨[⟨"buildpack.id", "0.0.1"⟩]⟩
      (.other "read /dev/stdin: is a directory") rfl rfl rfl]
    rfl
  · intro h
    simp only [GoError.other.injEq] at h
    revert h
    decide

/-- C8, counterexample to the claim as stated: a run that ends in a skip and a
run that ends in a completed `Analyze` need not return different values.  With
an unreachable registry the run is a skip, with a working one `Analyze`
completes, and both return nil. -/
theorem skip_and_success_return_the_same :
    ¬ ∀ (w1 w2 : World String String String) (f1 f2 : Flags),
        (analyzer w1 f1).isSkip → (analyzer w2 f2).completedAnalyze →
        (analyzer w1 f1).result ≠ (analyzer w2 f2).result := by
  intro h
  have hs : ∀ w : World String String String, w.decodeFile = baseWorld.decodeFile →
      w.setupCredHelpers = baseWorld.setupCredHelpers → w.newRegistry = baseWorld.newRegistry →
      w.newDaemon = baseWorld.newDaemon →
      ReachesStore w imageFlags ⟨[⟨"buildpack.id", "0.0.1"⟩]⟩ "registry.example/app" :=
    fun w h1 h2 h3 h4 => reachesStore_base w _ _ rfl (by rw [h1]; rfl) h2 h3 h4
  have e1 := analyzer_image_error worldUnreachable imageFlags _ _
    (.other "dial tcp: connection refused") (hs _ rfl rfl rfl rfl) rfl
  have e2 := analyzer_image_analyze baseWorld imageFlags _ _ "registry.example/app" "manifest"
    (hs _ rfl rfl rfl rfl) rfl rfl
  refine h worldUnreachable baseWorld imageFlags imageFlags ?_ ?_ ?_
  · rw [e1]
    simp [Run.isSkip, any_isWarning_storeSteps, Event.isWarning]
  · rw [e2]
    refine ⟨?_, rfl⟩
    simp only []
    rw [analyzeCalls_storeSteps]
    simp [analyzeCalls, Event.isAnalyze]
  · rw [e1, e2]
    rfl

/-- C8, amended: the value `analyzer` returns distinguishes two outcomes only,
nil and a typed failure; a run that ends in a skip and a run that ends in a
completed `Analyze` both return nil, and they differ in what they did: the skip
logged a warning and called `Analyze` not at all, the completed run logged no
warning. -/
theorem result_tells_nil_from_failure_only {Sto Img Doc : Type}
    (w1 w2 : World Sto Img Doc) (f1 f2 : Flags)
    (hskip : (analyzer w1 f1).isSkip) (hdone : (analyzer w2 f2).completedAnalyze) :
    ((analyzer w1 f1).result = .returned none ∧ (analyzer w2 f2).result = .returned none) ∧
      (analyzeCalls (analyzer w1 f1).trace = [] ∧ ¬ (analyzer w2 f2).isSkip) ∧
      ∀ (w : World Sto Img Doc) (f : Flags), (analyzer w f).result = .returned none ∨
        ∃ cause code action,
          (analyzer w f).result = .returned (some (.fail (some cause) code action)) := by
  refine ⟨⟨((skip_or_analyze w1 f1).1 hskip).1, hdone.2⟩,
    ⟨((skip_or_analyze w1 f1).1 hskip).2, ?_⟩, analyzer_returns⟩
  unfold Run.isSkip
  rw [(skip_or_analyze w2 f2).2 hdone.1]
  simp

theorem result_tells_nil_from_failure_only_witness :
    ((analyzer worldUnreachable imageFlags).result = .returned none ∧
        (analyzer baseWorld imageFlags).result = .returned none) ∧
      (analyzeCalls (analyzer worldUnreachable imageFlags).trace = [] ∧
        ¬ (analyzer baseWorld imageFlags).isSkip) ∧
      ∀ (w : World String String String) (f : Flags), (analyzer w f).result = .returned none ∨
        ∃ cause code action,
          (analyzer w f).result = .returned (some (.fail (some cause) code action)) :=
  result_tells_nil_from_failure_only worldUnreachable baseWorld imageFlags imageFlags
    (by
      rw [analyzer_image_error worldUnreachable imageFlags ⟨[⟨"buildpack.id", "0.0.1"⟩]⟩
        "registry.example/app" (.other "dial tcp: connection refused")
        (reachesStore_base _ _ _ rfl rfl rfl rfl rfl) rfl]
      simp [Run.isSkip, any_isWarning_storeSteps, Event.isWarning])
    (by
      rw [analyzer_image_analyze baseWorld imageFlags ⟨[⟨"buildpack.id", "0.0.1"⟩]⟩
        "registry.example/app" "registry.example/app" "manifest"
        (reachesStore_base _ _ _ rfl rfl rfl rfl rfl) rfl rfl]
      refine ⟨?_, rfl⟩
      simp only []
      rw [analyzeCalls_storeSteps]
      simp [analyzeCalls, Event.isAnalyze])

/-- C10: `main` exits with `CodeInvalidArgs` without running `analyzer` if and
only if there is more than one positional argument, or the first positional
argument (the repository name) is empty, or `launchDir` is empty; otherwise it
runs `analyzer` and exits with the status `packs.Exit` gives its result.  In
stdin metadata mode the repository name is still required, although the run of
`analyzer` does not depend on it. -/
theorem main_rejects_bad_arguments {Sto Img Doc : Type} (w : World Sto Img Doc)
    (flags : Flags) (args : List String) :
    (((main w flags args).status = .exited w.codes.CodeInvalidArgs ∧
          (main w flags args).trace = []) ↔
        (args.length > 1 ∨ args.head?.getD "" = "" ∨ flags.launchDir = "")) ∧
      (¬ (args.length > 1 ∨ args.head?.getD "" = "" ∨ flags.launchDir = "") →
        ∃ err, (analyzer w { flags with repoName := args.head?.getD "" }).result = .returned err ∧
          (main w flags args).status = .exited (Exit w.codes err) ∧
          (main w flags args).trace =
            (analyzer w { flags with repoName := args.head?.getD "" }).trace) ∧
      (flags.metadataOnStdin = true →
        ((main w flags []).status = .exited w.codes.CodeInvalidArgs ∧
          (main w flags []).trace = []) ∧
        ∀ repoName, analyzer w { flags with repoName := repoName } = analyzer w flags) := by
  have hgood : ¬ (args.length > 1 ∨ args.head?.getD "" = "" ∨ flags.launchDir = "") →
      ∃ err, (analyzer w { flags with repoName := args.head?.getD "" }).result = .returned err ∧
        (main w flags args).status = .exited (Exit w.codes err) ∧
        (main w flags args).trace =
          (analyzer w { flags with repoName := args.head?.getD "" }).trace := by
    intro hbad
    have hret : ∃ err, (analyzer w { flags with repoName := args.head?.getD "" }).result =
        .returned err := by
      rcases analyzer_returns w { flags with repoName := args.head?.getD "" } with h | ⟨c, k, a, h⟩
      · exact ⟨_, h⟩
      · exact ⟨_, h⟩
    obtain ⟨err, herr⟩ := hret
    refine ⟨err, herr, ?_, ?_⟩
    · simp only [main, if_neg hbad, herr]
    · simp only [main, if_neg hbad, herr]
  refine ⟨⟨?_, ?_⟩, hgood, ?_⟩
  · rintro ⟨-, htrace⟩
    by_contra hbad
    obtain ⟨err, -, -, ht⟩ := hgood hbad
    rw [ht] at htrace
    exact analyzer_trace_ne_nil _ _ htrace
  · intro hbad
    simp only [main, if_pos hbad]
    simp [Exit, FailCode, FailErrCode]
  · intro hm
    refine ⟨?_, fun repoName => ?_⟩
    · simp [main, Exit, FailCode, FailErrCode]
    · have h := analyzer_stdin_ignores_image_flags w flags hm flags.useHelpers flags.useDaemon
        repoName
      simpa using h

theorem main_rejects_bad_arguments_witness :
    (((main baseWorld stdinFlags ["a", "b"]).status = .exited sampleCodes.CodeInvalidArgs ∧
          (main baseWorld stdinFlags ["a", "b"]).trace = []) ↔
        ((["a", "b"] : List String).length > 1 ∨ (["a", "b"] : List String).head?.getD "" = "" ∨
          stdinFlags.launchDir = "")) ∧
      ((main baseWorld stdinFlags []).status = .exited sampleCodes.CodeInvalidArgs ∧
        (main baseWorld stdinFlags []).trace = []) :=
  ⟨(main_rejects_bad_arguments baseWorld stdinFlags ["a", "b"]).1,
    ((main_rejects_bad_arguments baseWorld stdinFlags ["a", "b"]).2.2 rfl).1⟩

end Lifecycle
